import Mathlib

/-
Verification of the NEPSE scraper (src/scrape.py) against its
natural-language specification.  The Python program is shallowly embedded:
a rendered HTML page is modelled by the results of the DOM queries the
program performs on it, pandas DataFrames by their cell grid (lists of
rows of string fields), and the written CSV file by its text content.
Exceptions raised by the Python code (selenium NoSuchElementException,
AttributeError on None, IndexError on an empty frame) are modelled by an
explicit error type, named after the spec's error kinds.
-/

set_option linter.unusedVariables false

namespace Scrape

/-- Error conditions of the program.  Each constructor names the spec's
error kind for a concrete Python exception site:
`malformedDirectoryPage` is the AttributeError raised at scrape.py:79 when
the select control with id stock-symbol is absent (find returns None);
`malformedTradingPage` is the AttributeError raised at scrape.py:122 when
the trading table is absent; `missingProbeCell` is selenium's
NoSuchElementException raised at scrape.py:106 when the probed cell's
xpath matches nothing; `emptyFrame` is the IndexError raised at
scrape.py:140 by df.iloc[0] on a DataFrame with no rows. -/
inductive ScrapeError where
  | malformedDirectoryPage
  | malformedTradingPage
  | missingProbeCell
  | emptyFrame
deriving Repr, DecidableEq

/-- Company entry as built at scrape.py:79: the dict
with keys symbol (the option's text) and value (the option's value
attribute). -/
structure Company where
  symbol : String
  value : String
deriving Repr, DecidableEq

/-- One option element of the select control: its text content
(option.string) and its value attribute (option.get("value")). -/
structure HtmlOption where
  string : String
  value : String
deriving Repr, DecidableEq

/-- The select control with id stock-symbol: its option elements in
document order (company_list.find_all("option")). -/
structure SelectControl where
  options : List HtmlOption
deriving Repr, DecidableEq

/-- A rendered directory page, modelled by the result of the one DOM query
fetch_company_list performs on it: soup.find("select", {"id":
"stock-symbol"}) at scrape.py:78, which is None when the control is
absent. -/
structure DirectoryPage where
  select : Option SelectControl
deriving Repr, DecidableEq

/-- Embedding of fetch_company_list (scrape.py:63-81), applied to the
rendered directory page.  When the select control is absent, soup.find
returns None and company_list.find_all("option") raises AttributeError
(the spec's MalformedDirectoryPage).  Otherwise the options list is
sliced [1:] and each remaining option becomes a Company dict. -/
def fetch_company_list (page : DirectoryPage) : Except ScrapeError (List Company) :=
  match page.select with
  | none => .error .malformedDirectoryPage
  | some company_list =>
      .ok ((company_list.options.drop 1).map (fun o => { symbol := o.string, value := o.value }))

/-- A cell element of a table row: its tag name (td, th, ...) and its text
content. -/
structure HtmlCell where
  tag : String
  text : String
deriving Repr, DecidableEq

/-- A tr element of the trading table: its cell elements in document
order. -/
structure HtmlRow where
  cells : List HtmlCell
deriving Repr, DecidableEq

/-- The trading table: its tr elements in document order
(table.find_all("tr")). -/
structure HtmlTable where
  rows : List HtmlRow
deriving Repr, DecidableEq

/-- A rendered trading page, modelled by the results of the two DOM
queries fetch_company_trading_data performs on it: the text of the
element at xpath /html/body/div[5]/table/tbody/tr[3]/td (scrape.py:106,
none when the xpath matches no element, in which case selenium raises
NoSuchElementException), and the first table with class
"table table-condensed table-hover" (scrape.py:121, none when absent). -/
structure TradingPage where
  probedCell : Option String
  table : Option HtmlTable
deriving Repr, DecidableEq

/-- Python s.replace(old, "") for a one-character pattern old: every
occurrence of the character is removed, scanning left to right. -/
def pyRemoveChar (old : Char) : List Char → List Char
  | [] => []
  | c :: cs => if c = old then pyRemoveChar old cs else c :: pyRemoveChar old cs

/-- Cell text cleaning at scrape.py:122:
cell.text.replace(char 13, "").replace(char 10, ""), first removing every
carriage return, then every line feed. -/
def cleanCellText (s : String) : String :=
  ⟨pyRemoveChar '\n' (pyRemoveChar '\r' s.data)⟩

/-- BeautifulSoup row.find_all(["td"]): the row's cell elements whose tag
is among the given tag names, in document order. -/
def findAllCells (tags : List String) (row : HtmlRow) : List HtmlCell :=
  row.cells.filter (fun c => tags.contains c.tag)

/-- One retained row's record at scrape.py:122: the cleaned text of each
of the row's td cells, in order. -/
def rowRecord (row : HtmlRow) : List String :=
  (findAllCells ["td"] row).map (fun c => cleanCellText c.text)

/-- Table extraction at scrape.py:122: table.find_all("tr")[1:-1] (the
Python slice drops the first and last element), each retained row
converted to its record. -/
def extract_table_data (table : HtmlTable) : List (List String) :=
  ((table.rows.drop 1).dropLast).map rowRecord

/-- DataFrame construction pd.DataFrame(table_data) at scrape.py:123,
composed with to_csv's later rendering of missing values as empty fields:
a ragged list of rows is padded on the right to the width of the longest
row.  On a rectangular input this is the identity. -/
def pdDataFrame (rows : List (List String)) : List (List String) :=
  rows.map (fun r => r ++ List.replicate ((rows.map List.length).foldr max 0 - r.length) "")

/-- Embedding of fetch_company_trading_data (scrape.py:84-125), applied to
the rendered trading page.  The probed cell is read first (selenium
raises when its xpath matches nothing); when its text is exactly
"No Data Available!" the function returns None (ok none here) without
touching the table; otherwise the table is located (AttributeError, the
spec's MalformedTradingPage, when absent), its first and last rows are
discarded and the rest converted to records, returned as a DataFrame. -/
def fetch_company_trading_data (page : TradingPage) :
    Except ScrapeError (Option (List (List String))) :=
  match page.probedCell with
  | none => .error .missingProbeCell
  | some trading_data =>
      if trading_data = "No Data Available!" then .ok none
      else
        match page.table with
        | none => .error .malformedTradingPage
        | some table => .ok (some (pdDataFrame (extract_table_data table)))

/-- Python s.replace(old, new) for one-character pattern and replacement:
every occurrence of old becomes new, scanning left to right. -/
def pyReplaceChar (old new : Char) : List Char → List Char
  | [] => []
  | c :: cs => (if c = old then new else c) :: pyReplaceChar old new cs

/-- File name derivation at scrape.py:144-148: the company's symbol with
every slash replaced by a dash, then an underscore, the start date, an
underscore, the end date and the .csv extension. -/
def file_name (company : Company) (start_date end_date : String) : String :=
  (⟨pyReplaceChar '/' '-' company.symbol.data⟩ : String) ++ "_" ++ start_date ++ "_" ++ end_date ++ ".csv"

/-- Minimal-quoting test of the csv writer pandas delegates to: a field is
quoted when it contains the delimiter, the quote character, or a
character of the line terminator (a bare line feed on the reference
platform). -/
def needsQuoting (s : String) : Bool :=
  s.data.any (fun c => c == ',' || c == '"' || c == '\n')

/-- Quote-doubling inside a quoted csv field: every quote character is
written twice. -/
def csvEscape : List Char → List Char
  | [] => []
  | c :: cs => if c = '"' then '"' :: '"' :: csvEscape cs else c :: csvEscape cs

/-- One csv field as the writer emits it: quoted with inner quotes
doubled when minimal quoting requires it, verbatim otherwise. -/
def encodeField (s : String) : String :=
  if needsQuoting s then (⟨ '"' :: (csvEscape s.data ++ [ '"' ])⟩ : String) else s

/-- One csv line: the row's fields, encoded and joined with the comma
delimiter. -/
def encodeRow : List String → String
  | [] => ""
  | [f] => encodeField f
  | f :: fs => encodeField f ++ "," ++ encodeRow fs

/-- Csv text for a list of rows: one encoded line per row, each terminated
by a line feed, exactly as df.to_csv emits header and data lines. -/
def encodeCsv : List (List String) → String
  | [] => ""
  | r :: rs => encodeRow r ++ "\n" ++ encodeCsv rs

/-- Embedding of save_company_trading_data (scrape.py:128-153).  The
DataFrame is passed as its cell grid (a DataFrame is rectangular by
construction).  df.iloc[0] raises IndexError on an empty frame; otherwise
the first row becomes the header (df.columns = header after df = df[1:]),
and df.to_csv(file_path, index=False) writes the header line followed by
one line per data row, with no row index.  The result is the written
file's path and text content. -/
def save_company_trading_data (df : List (List String)) (company : Company)
    (start_date end_date : String) : Except ScrapeError (String × String) :=
  match df with
  | [] => .error .emptyFrame
  | header :: rest =>
      .ok ("data/" ++ file_name company start_date end_date,
           encodeRow header ++ "\n" ++ encodeCsv rest)

/-- Scanner mode of the csv reader: inside an unquoted field, inside a
quoted field, or just after a quote character inside a quoted field. -/
inductive CsvMode where
  | unq
  | quo
  | quoq
deriving Repr, DecidableEq

/-- Scanner state of the csv reader: the completed rows, the completed
fields of the current row, the characters of the current field, and the
mode. -/
structure CsvState where
  rows : List (List String)
  row : List String
  field : List Char
  mode : CsvMode
deriving Repr, DecidableEq

/-- One step of the csv reader on the next character. -/
def csvStep (st : CsvState) (c : Char) : CsvState :=
  match st.mode with
  | .unq =>
      if c = '"' ∧ st.field = [] then { st with mode := .quo }
      else if c = ',' then { st with row := st.row ++ [⟨st.field⟩], field := [] }
      else if c = '\n' then ⟨st.rows ++ [st.row ++ [⟨st.field⟩]], [], [], .unq⟩
      else { st with field := st.field ++ [c] }
  | .quo =>
      if c = '"' then { st with mode := .quoq }
      else { st with field := st.field ++ [c] }
  | .quoq =>
      if c = '"' then { st with field := st.field ++ [ '"' ], mode := .quo }
      else if c = ',' then { st with row := st.row ++ [⟨st.field⟩], field := [], mode := .unq }
      else if c = '\n' then ⟨st.rows ++ [st.row ++ [⟨st.field⟩]], [], [], .unq⟩
      else { st with field := st.field ++ [c], mode := .unq }

/-- Final state of the csv reader: a pending field or row still open at
end of input is completed; after a final line terminator nothing is
pending. -/
def csvFinish (st : CsvState) : List (List String) :=
  if st.mode = .unq ∧ st.field = [] ∧ st.row = [] then st.rows
  else st.rows ++ [st.row ++ [⟨st.field⟩]]

/-- Csv reader: scan the text character by character and close the final
state.  This is the parse-back direction of the round-trip property. -/
def parseCsv (s : String) : List (List String) :=
  csvFinish (s.data.foldl csvStep ⟨[], [], [], .unq⟩)

/-- Observable events of one orchestrator run: a company skipped on the
no-data sentinel, a file saved for a company (with its path and content),
the fixed sleep that follows a save (scrape.py:184, time.sleep(15)), and
an abort by an uncaught exception. -/
inductive Event where
  | skipped (c : Company)
  | saved (c : Company) (path : String) (content : String)
  | slept (seconds : Nat)
  | aborted (e : ScrapeError)
deriving Repr, DecidableEq

/-- Embedding of the per-company loop of main (scrape.py:169-184) as an
event trace.  fetchResult gives each company's fetch_company_trading_data
outcome (the page it loads is a function of the company).  A None result
logs a skip and continues immediately; otherwise the data is saved and
the loop sleeps 15 seconds before the next company.  An uncaught
exception (error outcome) aborts the whole run. -/
def mainTrace (fetchResult : Company → Except ScrapeError (Option (List (List String))))
    (start_date end_date : String) : List Company → List Event
  | [] => []
  | company :: rest =>
      match fetchResult company with
      | .error e => [.aborted e]
      | .ok none => .skipped company :: mainTrace fetchResult start_date end_date rest
      | .ok (some df) =>
          match save_company_trading_data df company start_date end_date with
          | .error e => [.aborted e]
          | .ok (path, content) =>
              .saved company path content :: .slept 15 ::
                mainTrace fetchResult start_date end_date rest

/-- Directory page used to instantiate the company-list theorems: a
placeholder option followed by two real companies. -/
def sampleDirectory : DirectoryPage :=
  ⟨some ⟨[⟨"-- choose one --", "0"⟩, ⟨"AHPC", "360"⟩, ⟨"NABIL", "131"⟩]⟩⟩

/-- Trading table used to instantiate the row-stripping theorem: a header
row, two data rows and a footer row. -/
def sampleTable : HtmlTable :=
  ⟨[⟨[⟨"td", "Date"⟩, ⟨"td", "Close"⟩]⟩,
    ⟨[⟨"td", "2021-01-01"⟩, ⟨"td", "100"⟩]⟩,
    ⟨[⟨"td", "2021-01-02"⟩, ⟨"td", "101"⟩]⟩,
    ⟨[⟨"td", "Total"⟩, ⟨"td", "201"⟩]⟩]⟩

/-- Trading table used to instantiate the td-only theorem: its first
retained row is made only of th cells. -/
def sampleTableTh : HtmlTable :=
  ⟨[⟨[⟨"td", "Date"⟩]⟩,
    ⟨[⟨"th", "Heading"⟩, ⟨"th", "Other"⟩]⟩,
    ⟨[⟨"td", "2021-01-01"⟩, ⟨"td", "100"⟩]⟩,
    ⟨[⟨"td", "Total"⟩]⟩]⟩

/-
Helper lemmas shared by the claim theorems.
-/

theorem pyRemoveChar_eq_filter (old : Char) (l : List Char) :
    pyRemoveChar old l = l.filter (fun c => c != old) := by
  induction l with
  | nil => rfl
  | cons c cs ih =>
      by_cases h : c = old <;> simp [pyRemoveChar, h, ih, List.filter_cons]

theorem pyReplaceChar_eq_map (old new : Char) (l : List Char) :
    pyReplaceChar old new l = l.map (fun c => if c = old then new else c) := by
  induction l with
  | nil => rfl
  | cons c cs ih => simp [pyReplaceChar, ih]

theorem drop_dropLast_getElem? {α : Type} (l : List α) (i : Nat) (h : i + 2 < l.length) :
    ((l.drop 1).dropLast)[i]? = l[i + 1]? := by
  rw [List.dropLast_eq_take, List.getElem?_take, List.length_drop,
    if_pos (by omega), List.getElem?_drop, Nat.add_comm]

theorem contains_td (s : String) : (["td"].contains s) = (s == "td") := by
  show (s == "td" || List.contains [] s) = (s == "td")
  simp

/-- Claim C1: fetch_company_trading_data returns the no-data sentinel (the
None return, ok none here) exactly when the probed cell exists and its
text is the literal string "No Data Available!"; in every other case it
either fails or extracts the table, so no records are returned on the
sentinel path. -/
theorem fetch_trading_none_iff_sentinel (page : TradingPage) :
    fetch_company_trading_data page = .ok none ↔
      page.probedCell = some "No Data Available!" := by
  rcases page with ⟨probed, table⟩
  rcases probed with _ | t
  · simp [fetch_company_trading_data]
  · by_cases h : t = "No Data Available!"
    · simp [fetch_company_trading_data, h]
    · rcases table with _ | tbl <;> simp [fetch_company_trading_data, h]

/-- Claim C2: for a trading table of N rows with N at least 3, extraction
discards exactly the first and the last row: the result has N - 2
records, and the record at output index i is the converted row at input
index i + 1, so the output order equals the rendered row order. -/
theorem extract_table_strips_first_last (tbl : HtmlTable) (h : 3 ≤ tbl.rows.length) :
    (extract_table_data tbl).length = tbl.rows.length - 2 ∧
      ∀ i, i + 2 < tbl.rows.length →
        (extract_table_data tbl)[i]? = (tbl.rows[i + 1]?).map rowRecord := by
  constructor
  · simp only [extract_table_data, List.length_map, List.length_dropLast, List.length_drop]
    omega
  · intro i hi
    simp only [extract_table_data]
    rw [List.getElem?_map, drop_dropLast_getElem? _ _ hi]

/-- Witness for C2 on the concrete four-row sample table. -/
theorem extract_table_strips_first_last_app :
    (extract_table_data sampleTable).length = sampleTable.rows.length - 2 ∧
      ∀ i, i + 2 < sampleTable.rows.length →
        (extract_table_data sampleTable)[i]? = (sampleTable.rows[i + 1]?).map rowRecord :=
  extract_table_strips_first_last sampleTable (by decide)

/-- Claim C3: the cleaned cell text is the cell's text with every carriage
return and every line feed removed and nothing else changed: its
character list is exactly the filter of the original character list that
drops those two characters. -/
theorem cleanCellText_removes_crlf (s : String) :
    (cleanCellText s).data = s.data.filter (fun c => c != '\r' && c != '\n') := by
  show pyRemoveChar '\n' (pyRemoveChar '\r' s.data) = _
  rw [pyRemoveChar_eq_filter, pyRemoveChar_eq_filter, List.filter_filter]
  congr 1
  funext c
  rw [Bool.and_comm]

/-- Claim C4: when the select control is present with n options,
fetch_company_list succeeds with exactly the last n - 1 options in source
order: the result's length is n - 1 and its entry at index i is the
option at index i + 1 mapped to a Company (symbol from the option's text,
value from its value attribute).  The first option never appears and
duplicates pass through, both because every output index is tied to its
source index. -/
theorem fetch_company_list_options (page : DirectoryPage) (ctrl : SelectControl)
    (hsel : page.select = some ctrl) (hn : 1 ≤ ctrl.options.length) :
    ∃ cs, fetch_company_list page = .ok cs ∧
      cs.length = ctrl.options.length - 1 ∧
      ∀ i, cs[i]? = (ctrl.options[i + 1]?).map (fun o => Company.mk o.string o.value) := by
  refine ⟨(ctrl.options.drop 1).map (fun o => Company.mk o.string o.value), ?_, ?_, ?_⟩
  · simp [fetch_company_list, hsel]
  · simp
  · intro i
    rw [List.getElem?_map, List.getElem?_drop, Nat.add_comm]

/-- Witness for C4 on the concrete three-option sample directory page. -/
theorem fetch_company_list_options_app :
    ∃ cs, fetch_company_list sampleDirectory = .ok cs ∧
      cs.length = 3 - 1 ∧
      ∀ i, cs[i]? =
        (([⟨"-- choose one --", "0"⟩, ⟨"AHPC", "360"⟩, ⟨"NABIL", "131"⟩] :
            List HtmlOption)[i + 1]?).map (fun o => Company.mk o.string o.value) :=
  fetch_company_list_options sampleDirectory
    ⟨[⟨"-- choose one --", "0"⟩, ⟨"AHPC", "360"⟩, ⟨"NABIL", "131"⟩]⟩ rfl (by decide)

/-- Claim C5: a successful save writes to the data directory under the
name symbol_startDate_endDate.csv where the symbol has every slash
character mapped to a dash and every other character of the symbol and
the dates kept unchanged. -/
theorem save_file_name_slashes (df : List (List String)) (c : Company)
    (sd ed : String) (h : df ≠ []) :
    ∃ content, save_company_trading_data df c sd ed =
      .ok ("data/" ++
        ((⟨c.symbol.data.map (fun ch => if ch = '/' then '-' else ch)⟩ : String) ++
          "_" ++ sd ++ "_" ++ ed ++ ".csv"), content) := by
  obtain ⟨header, rest, rfl⟩ := List.exists_cons_of_ne_nil h
  refine ⟨encodeRow header ++ "\n" ++ encodeCsv rest, ?_⟩
  simp only [save_company_trading_data, file_name, pyReplaceChar_eq_map]

/-- Witness for C5: the symbol AB/CD yields the file
data/AB-CD_2000-01-01_2021-12-31.csv. -/
theorem save_file_name_slashes_app :
    ∃ content, save_company_trading_data [["x"]] ⟨"AB/CD", "1"⟩ "2000-01-01" "2021-12-31" =
      .ok ("data/AB-CD_2000-01-01_2021-12-31.csv", content) := by
  obtain ⟨content, hc⟩ :=
    save_file_name_slashes [["x"]] ⟨"AB/CD", "1"⟩ "2000-01-01" "2021-12-31" (by decide)
  have hp : ("data/" ++
      ((⟨"AB/CD".data.map (fun ch => if ch = '/' then '-' else ch)⟩ : String) ++
        "_" ++ "2000-01-01" ++ "_" ++ "2021-12-31" ++ ".csv")) =
      "data/AB-CD_2000-01-01_2021-12-31.csv" := by decide
  rw [hp] at hc
  exact ⟨content, hc⟩

/-- Claim C8: when the select control with id stock-symbol is absent from
the directory page, fetch_company_list fails with the
MalformedDirectoryPage condition and returns no companies. -/
theorem fetch_company_list_no_control (page : DirectoryPage) (h : page.select = none) :
    fetch_company_list page = .error .malformedDirectoryPage := by
  simp [fetch_company_list, h]

/-- Witness for C8 on a directory page with no select control. -/
theorem fetch_company_list_no_control_app :
    fetch_company_list ⟨none⟩ = .error .malformedDirectoryPage :=
  fetch_company_list_no_control ⟨none⟩ rfl

/-- Claim C9: every retained row of the table contributes one record made
of exactly its td cells' cleaned texts in order; a retained row with no
td cell contributes the empty record instead of being skipped or
failing. -/
theorem extract_record_td_cells_only (tbl : HtmlTable) (i : Nat)
    (h : i + 2 < tbl.rows.length) :
    ∃ row, tbl.rows[i + 1]? = some row ∧
      (extract_table_data tbl)[i]? =
        some ((row.cells.filter (fun c => c.tag == "td")).map
          (fun c => cleanCellText c.text)) ∧
      ((∀ cell ∈ row.cells, cell.tag ≠ "td") → (extract_table_data tbl)[i]? = some []) := by
  have hlt : i + 1 < tbl.rows.length := by omega
  refine ⟨tbl.rows[i + 1], List.getElem?_eq_getElem hlt, ?_, ?_⟩
  · simp only [extract_table_data]
    rw [List.getElem?_map, drop_dropLast_getElem? _ _ h, List.getElem?_eq_getElem hlt]
    simp only [Option.map_some']
    congr 1
    simp only [rowRecord, findAllCells]
    congr 1
    apply List.filter_congr
    intro c _
    exact contains_td c.tag
  · intro hno
    simp only [extract_table_data]
    rw [List.getElem?_map, drop_dropLast_getElem? _ _ h, List.getElem?_eq_getElem hlt]
    simp only [Option.map_some', Option.some.injEq]
    have : findAllCells ["td"] tbl.rows[i + 1] = [] := by
      simp only [findAllCells]
      rw [List.filter_eq_nil_iff]
      intro c hc
      rw [contains_td]
      simpa using hno c hc
    simp [rowRecord, this]

/-- Witness for C9 on the sample table whose first retained row has only
th cells: the record at output index 0 exists and is empty. -/
theorem extract_record_td_cells_only_app :
    ∃ row, sampleTableTh.rows[0 + 1]? = some row ∧
      (extract_table_data sampleTableTh)[0]? =
        some ((row.cells.filter (fun c => c.tag == "td")).map
          (fun c => cleanCellText c.text)) ∧
      ((∀ cell ∈ row.cells, cell.tag ≠ "td") →
        (extract_table_data sampleTableTh)[0]? = some []) :=
  extract_record_td_cells_only sampleTableTh 0 (by decide)

theorem mk_data (s : String) : (⟨s.data⟩ : String) = s := rfl

theorem csv_scan_unquoted (cs : List Char) (hcs : ∀ c ∈ cs, c ≠ ',' ∧ c ≠ '"' ∧ c ≠ '\n') :
    ∀ rows row acc, cs.foldl csvStep ⟨rows, row, acc, .unq⟩ = ⟨rows, row, acc ++ cs, .unq⟩ := by
  induction cs with
  | nil => intro rows row acc; simp
  | cons c cs ih =>
      intro rows row acc
      obtain ⟨h1, h2, h3⟩ := hcs c (by simp)
      have hstep : csvStep ⟨rows, row, acc, .unq⟩ c = ⟨rows, row, acc ++ [c], .unq⟩ := by
        simp [csvStep, h1, h2, h3]
      rw [List.foldl_cons, hstep, ih (fun x hx => hcs x (by simp [hx]))]
      simp

theorem csv_scan_quoted (cs : List Char) :
    ∀ rows row acc, (csvEscape cs).foldl csvStep ⟨rows, row, acc, .quo⟩ =
      ⟨rows, row, acc ++ cs, .quo⟩ := by
  induction cs with
  | nil => intro rows row acc; simp [csvEscape]
  | cons c cs ih =>
      intro rows row acc
      by_cases h : c = '"'
      · subst h
        have hesc : csvEscape ( '"' :: cs) = '"' :: '"' :: csvEscape cs := by
          simp [csvEscape]
        rw [hesc, List.foldl_cons, List.foldl_cons]
        have h1 : csvStep ⟨rows, row, acc, .quo⟩ '"' = ⟨rows, row, acc, .quoq⟩ := by
          simp [csvStep]
        have h2 : csvStep ⟨rows, row, acc, .quoq⟩ '"' = ⟨rows, row, acc ++ [ '"' ], .quo⟩ := by
          simp [csvStep]
        rw [h1, h2, ih]
        simp
      · simp only [csvEscape, if_neg h, List.foldl_cons]
        have h1 : csvStep ⟨rows, row, acc, .quo⟩ c = ⟨rows, row, acc ++ [c], .quo⟩ := by
          simp [csvStep, h]
        rw [h1, ih]
        simp

theorem csv_scan_field (f : String) (rows : List (List String)) (row : List String) :
    (encodeField f).data.foldl csvStep ⟨rows, row, [], .unq⟩ = ⟨rows, row, f.data, .unq⟩ ∨
    (encodeField f).data.foldl csvStep ⟨rows, row, [], .unq⟩ = ⟨rows, row, f.data, .quoq⟩ := by
  by_cases hq : needsQuoting f
  · right
    have hdata : (encodeField f).data = '"' :: (csvEscape f.data ++ [ '"' ]) := by
      simp [encodeField, hq]
    rw [hdata, List.foldl_cons]
    have h0 : csvStep ⟨rows, row, [], .unq⟩ '"' = ⟨rows, row, [], .quo⟩ := by
      simp [csvStep]
    rw [h0, List.foldl_append, csv_scan_quoted]
    simp [csvStep]
  · left
    have hdata : (encodeField f).data = f.data := by simp [encodeField, hq]
    have hchars : ∀ c ∈ f.data, c ≠ ',' ∧ c ≠ '"' ∧ c ≠ '\n' := by
      intro c hc
      have := hq
      simp only [needsQuoting, List.any_eq_true, not_exists, not_and,
        Bool.or_eq_true, beq_iff_eq] at this
      push_neg at this
      have h3 := this c hc
      simp at h3
      exact ⟨h3.1.1, h3.1.2, h3.2⟩
    rw [hdata]
    have := csv_scan_unquoted f.data hchars rows row []
    simpa using this

theorem csv_scan_field_comma (f : String) (rows : List (List String)) (row : List String) :
    ((encodeField f).data ++ [ ',' ]).foldl csvStep ⟨rows, row, [], .unq⟩ =
      ⟨rows, row ++ [f], [], .unq⟩ := by
  rw [List.foldl_append]
  rcases csv_scan_field f rows row with h | h <;> rw [h] <;> simp [csvStep, mk_data]

theorem csv_scan_field_newline (f : String) (rows : List (List String)) (row : List String) :
    ((encodeField f).data ++ [ '\n' ]).foldl csvStep ⟨rows, row, [], .unq⟩ =
      ⟨rows ++ [row ++ [f]], [], [], .unq⟩ := by
  rw [List.foldl_append]
  rcases csv_scan_field f rows row with h | h <;> rw [h] <;> simp [csvStep, mk_data]

theorem csv_scan_row (r : List String) (hr : r ≠ []) :
    ∀ rows row, ((encodeRow r).data ++ [ '\n' ]).foldl csvStep ⟨rows, row, [], .unq⟩ =
      ⟨rows ++ [row ++ r], [], [], .unq⟩ := by
  induction r with
  | nil => exact absurd rfl hr
  | cons f fs ih =>
      intro rows row
      cases fs with
      | nil => simpa [encodeRow] using csv_scan_field_newline f rows row
      | cons g gs =>
          have hdata : (encodeRow (f :: g :: gs)).data ++ [ '\n' ] =
              ((encodeField f).data ++ [ ',' ]) ++ ((encodeRow (g :: gs)).data ++ [ '\n' ]) := by
            show (encodeField f ++ "," ++ encodeRow (g :: gs)).data ++ [ '\n' ] = _
            simp [String.data_append]
          rw [hdata, List.foldl_append, csv_scan_field_comma,
            ih (by simp) rows (row ++ [f])]
          simp

theorem csv_scan_rows (rs : List (List String)) (h : ∀ r ∈ rs, r ≠ []) :
    ∀ acc, (encodeCsv rs).data.foldl csvStep ⟨acc, [], [], .unq⟩ = ⟨acc ++ rs, [], [], .unq⟩ := by
  induction rs with
  | nil => intro acc; simp [encodeCsv]
  | cons r rs ih =>
      intro acc
      have hdata : (encodeCsv (r :: rs)).data =
          ((encodeRow r).data ++ [ '\n' ]) ++ (encodeCsv rs).data := by
        show (encodeRow r ++ "\n" ++ encodeCsv rs).data = _
        simp [String.data_append]
      rw [hdata, List.foldl_append, csv_scan_row r (h r (by simp)) acc [],
        ih (fun x hx => h x (by simp [hx]))]
      simp

theorem parseCsv_encodeCsv (rs : List (List String)) (h : ∀ r ∈ rs, r ≠ []) :
    parseCsv (encodeCsv rs) = rs := by
  unfold parseCsv
  rw [csv_scan_rows rs h []]
  simp [csvFinish]

/-- Claim C7 (amended): for every non-empty sequence of records all of the
same non-zero length (the cell grid of a DataFrame built from a
well-formed extracted table is such a rectangle), saving writes a file
whose parsed-back content is exactly the original records: the header
line is the first record and the data lines are the remaining records,
in order and with unchanged field content, including fields containing
the delimiter or the quote character. -/
theorem save_round_trip (df : List (List String)) (c : Company) (sd ed : String)
    (w : Nat) (hw : 0 < w) (hne : df ≠ []) (hrect : ∀ r ∈ df, r.length = w) :
    ∃ path content, save_company_trading_data df c sd ed = .ok (path, content) ∧
      parseCsv content = df := by
  obtain ⟨header, rest, rfl⟩ := List.exists_cons_of_ne_nil hne
  refine ⟨"data/" ++ file_name c sd ed, encodeRow header ++ "\n" ++ encodeCsv rest, rfl, ?_⟩
  have hcsv : encodeRow header ++ "\n" ++ encodeCsv rest = encodeCsv (header :: rest) := rfl
  rw [hcsv]
  apply parseCsv_encodeCsv
  intro r hr
  intro hnil
  have hlen := hrect r hr
  rw [hnil] at hlen
  simp at hlen
  omega

/-- Witness for C7 on a two-record rectangle whose fields contain the
delimiter and the quote character. -/
theorem save_round_trip_app :
    ∃ path content,
      save_company_trading_data [["Date", "Close,Price"], ["2021-01-01", "1\"000"]]
        ⟨"AHPC", "360"⟩ "2000-01-01" "2021-12-31" = .ok (path, content) ∧
      parseCsv content = [["Date", "Close,Price"], ["2021-01-01", "1\"000"]] :=
  save_round_trip [["Date", "Close,Price"], ["2021-01-01", "1\"000"]]
    ⟨"AHPC", "360"⟩ "2000-01-01" "2021-12-31" 2 (by decide) (by decide) (by decide)

/-- Counterexample to C7 as stated: the one-record sequence whose only
record is empty is non-empty, yet saving writes a file holding a single
empty line, which parses back as one record holding one empty field, not
as the original empty record. -/
theorem save_round_trip_cex :
    save_company_trading_data [[]] ⟨"AHPC", "360"⟩ "2000-01-01" "2021-12-31" =
      .ok ("data/AHPC_2000-01-01_2021-12-31.csv", "\n") ∧
    parseCsv "\n" = [[""]] ∧
    ([[""]] : List (List String)) ≠ [[]] := by
  refine ⟨rfl, rfl, by decide⟩

/-- Claim C10: saving a one-record sequence succeeds: the single record
becomes the header line and the written content is that one line alone,
with zero data rows after it. -/
theorem save_single_record (r : List String) (c : Company) (sd ed : String) :
    save_company_trading_data [r] c sd ed =
      .ok ("data/" ++ file_name c sd ed, encodeRow r ++ "\n") := by
  simp only [save_company_trading_data, encodeCsv]
  rw [String.append_empty]

/-- Claim C6: in every run of the per-company loop, the fixed 15-second
pause happens exactly after a save: every sleep event in the trace lasts
15 seconds and is immediately preceded by a save event, every save event
is immediately followed by the 15-second sleep, and a company whose
fetch yields the no-data sentinel never has a file saved, so after a
skipped company the next company starts with zero delay. -/
theorem mainTrace_pause_only_after_save
    (f : Company → Except ScrapeError (Option (List (List String))))
    (sd ed : String) (companies : List Company) :
    (∀ (i t : Nat), (mainTrace f sd ed companies)[i]? = some (Event.slept t) →
      t = 15 ∧ 1 ≤ i ∧
        ∃ c p ct, (mainTrace f sd ed companies)[i - 1]? = some (Event.saved c p ct)) ∧
    (∀ (i : Nat) (c : Company) (p ct : String),
      (mainTrace f sd ed companies)[i]? = some (Event.saved c p ct) →
      (mainTrace f sd ed companies)[i + 1]? = some (Event.slept 15)) ∧
    (∀ c : Company, f c = .ok none →
      ∀ (i : Nat) (p ct : String),
        (mainTrace f sd ed companies)[i]? ≠ some (Event.saved c p ct)) := by
  induction companies with
  | nil =>
      refine ⟨?_, ?_, ?_⟩
      · intro i t hit; simp [mainTrace] at hit
      · intro i c p ct hit; simp [mainTrace] at hit
      · intro c hc i p ct hit; simp [mainTrace] at hit
  | cons company rest ih =>
      obtain ⟨ih1, ih2, ih3⟩ := ih
      rcases hfc : f company with e | odf
      · have htr : mainTrace f sd ed (company :: rest) = [.aborted e] := by
          simp [mainTrace, hfc]
        rw [htr]
        refine ⟨?_, ?_, ?_⟩
        · intro i t hit
          cases i with
          | zero => simp at hit
          | succ n => simp at hit
        · intro i c p ct hit
          cases i with
          | zero => simp at hit
          | succ n => simp at hit
        · intro c hc i p ct hit
          cases i with
          | zero => simp at hit
          | succ n => simp at hit
      · rcases odf with _ | df
        · have htr : mainTrace f sd ed (company :: rest) =
              .skipped company :: mainTrace f sd ed rest := by
            simp [mainTrace, hfc]
          rw [htr]
          refine ⟨?_, ?_, ?_⟩
          · intro i t hit
            cases i with
            | zero => simp at hit
            | succ n =>
                rw [List.getElem?_cons_succ] at hit
                obtain ⟨ht, hn, c', p', ct', hprev⟩ := ih1 n t hit
                obtain ⟨m, rfl⟩ : ∃ m, n = m + 1 := ⟨n - 1, by omega⟩
                refine ⟨ht, by omega, c', p', ct', ?_⟩
                simpa using hprev
          · intro i c p ct hit
            cases i with
            | zero => simp at hit
            | succ n =>
                rw [List.getElem?_cons_succ] at hit
                have := ih2 n c p ct hit
                simpa using this
          · intro c hc i p ct hit
            cases i with
            | zero => simp at hit
            | succ n =>
                rw [List.getElem?_cons_succ] at hit
                exact ih3 c hc n p ct hit
        · rcases hsv : save_company_trading_data df company sd ed with e | pc
          · have htr : mainTrace f sd ed (company :: rest) = [.aborted e] := by
              simp [mainTrace, hfc, hsv]
            rw [htr]
            refine ⟨?_, ?_, ?_⟩
            · intro i t hit
              cases i with
              | zero => simp at hit
              | succ n => simp at hit
            · intro i c p ct hit
              cases i with
              | zero => simp at hit
              | succ n => simp at hit
            · intro c hc i p ct hit
              cases i with
              | zero => simp at hit
              | succ n => simp at hit
          · obtain ⟨p0, ct0⟩ := pc
            have htr : mainTrace f sd ed (company :: rest) =
                .saved company p0 ct0 :: .slept 15 :: mainTrace f sd ed rest := by
              simp [mainTrace, hfc, hsv]
            rw [htr]
            refine ⟨?_, ?_, ?_⟩
            · intro i t hit
              cases i with
              | zero => simp at hit
              | succ n =>
                  cases n with
                  | zero =>
                      simp only [List.getElem?_cons_succ, List.getElem?_cons_zero,
                        Option.some.injEq, Event.slept.injEq] at hit
                      refine ⟨hit.symm, by omega, company, p0, ct0, by simp⟩
                  | succ m =>
                      rw [List.getElem?_cons_succ, List.getElem?_cons_succ] at hit
                      obtain ⟨ht, hm, c', p', ct', hprev⟩ := ih1 m t hit
                      obtain ⟨k, rfl⟩ : ∃ k, m = k + 1 := ⟨m - 1, by omega⟩
                      refine ⟨ht, by omega, c', p', ct', ?_⟩
                      simpa using hprev
            · intro i c p ct hit
              cases i with
              | zero => simp
              | succ n =>
                  cases n with
                  | zero => simp at hit
                  | succ m =>
                      rw [List.getElem?_cons_succ, List.getElem?_cons_succ] at hit
                      have := ih2 m c p ct hit
                      simpa using this
            · intro c hc i p ct hit
              cases i with
              | zero =>
                  simp only [List.getElem?_cons_zero, Option.some.injEq,
                    Event.saved.injEq] at hit
                  obtain ⟨hceq, -, -⟩ := hit
                  rw [← hceq, hfc] at hc
                  simp at hc
              | succ n =>
                  cases n with
                  | zero => simp at hit
                  | succ m =>
                      rw [List.getElem?_cons_succ, List.getElem?_cons_succ] at hit
                      exact ih3 c hc m p ct hit

end Scrape
